import Mathlib

/-!
# Verification of the CLBG container library

Shallow embedding of the CLBG single-file container format library
(`clbg-ts`): the fixed 64-byte header codec (`src/models/Header.ts`), the
JSON metadata codec (`src/models/Metadata.ts`), the progress/ETA model
(`src/utils/progressReporter.ts`) and the create/extract orchestration
(`src/models/CLBGFile.ts`).

Buffers are modelled as `List Nat` with every entry a byte (`< 256`);
JavaScript numbers are modelled as exact rationals, extended with `NaN`
and signed infinities (`JsNum`) where the code can divide by zero.
-/

namespace CLBG

/-! ## Buffer primitives

`Buffer.alloc` is `List.replicate _ 0`; `Buffer.write`/`Buffer.copy` write
a byte sequence at an offset, never growing the buffer (writes are
truncated at the end of the buffer, as in Node). -/

/-- Write the bytes `xs` into `buf` starting at `off`, truncating at the end
of the buffer; each written value is stored as a byte (`% 256`). -/
def bufWrite (buf : List Nat) (off : Nat) (xs : List Nat) : List Nat :=
  buf.take off ++ (xs.take (buf.length - off)).map (· % 256) ++ buf.drop (off + xs.length)

/-- The four bytes of `writeUInt32LE` (little endian). -/
def u32leBytes (v : Nat) : List Nat :=
  [v % 256, v / 256 % 256, v / 65536 % 256, v / 16777216 % 256]

/-- `readUInt32LE`: little-endian 32-bit read at `off` (out-of-range reads
yield 0; the library only reads inside 64-byte buffers). -/
def readUInt32LE (data : List Nat) (off : Nat) : Nat :=
  data.getD off 0 + data.getD (off + 1) 0 * 256 +
    data.getD (off + 2) 0 * 65536 + data.getD (off + 3) 0 * 16777216

/-! ## Header codec (`src/models/Header.ts`) -/

/-- `HEADER_CONSTANTS.SIGNATURE = "CLBG\r\n\x1A\n"`, as ASCII bytes. -/
def SIGNATURE_BYTES : List Nat := [67, 76, 66, 71, 13, 10, 26, 10]

/-- `HEADER_CONSTANTS.HEADER_SIZE`. -/
def HEADER_SIZE : Nat := 64

/-- `HeaderOptions`: every field optional (`undefined` = `none`). -/
structure HeaderOptions where
  version : Option Nat := none
  metadataOffset : Option Nat := none
  metadataLength : Option Nat := none
  coverOffset : Option Nat := none
  coverLength : Option Nat := none
  archiveOffset : Option Nat := none
  archiveHash : Option (List Nat) := none

/-- JavaScript `options.x || default` on a number: `undefined` and `0` are
falsy, any other number is kept. -/
def falsyOr (v : Option Nat) (d : Nat) : Nat :=
  match v with
  | none => d
  | some n => if n = 0 then d else n

/-- The decoded header record. -/
structure Header where
  version : Nat
  metadataOffset : Nat
  metadataLength : Nat
  coverOffset : Nat
  coverLength : Nat
  archiveOffset : Nat
  archiveHash : List Nat
deriving DecidableEq, Repr

/-- The `Header` constructor: every numeric field is defaulted with
`options.x || default` (so a present-but-zero `version` becomes 1 and a
present-but-zero `metadataOffset` becomes 64); `archiveHash` is defaulted
only when absent (a Buffer, even empty, is truthy). -/
def Header.fromOptions (o : HeaderOptions) : Header where
  version := falsyOr o.version 1
  metadataOffset := falsyOr o.metadataOffset HEADER_SIZE
  metadataLength := falsyOr o.metadataLength 0
  coverOffset := falsyOr o.coverOffset 0
  coverLength := falsyOr o.coverLength 0
  archiveOffset := falsyOr o.archiveOffset 0
  archiveHash := o.archiveHash.getD []

/-- `Header.toBytes`: allocate 64 zero bytes, write the signature at 0, the
six `uint32` fields little-endian at offsets 8,12,16,20,24,28, and copy the
hash at offset 32. -/
def Header.toBytes (h : Header) : List Nat :=
  let buffer := List.replicate HEADER_SIZE 0
  let buffer := bufWrite buffer 0 SIGNATURE_BYTES
  let buffer := bufWrite buffer 8 (u32leBytes h.version)
  let buffer := bufWrite buffer 12 (u32leBytes h.metadataOffset)
  let buffer := bufWrite buffer 16 (u32leBytes h.metadataLength)
  let buffer := bufWrite buffer 20 (u32leBytes h.coverOffset)
  let buffer := bufWrite buffer 24 (u32leBytes h.coverLength)
  let buffer := bufWrite buffer 28 (u32leBytes h.archiveOffset)
  bufWrite buffer 32 h.archiveHash

/-- `Header.fromBytes`: read the six `uint32` fields, slice bytes 32–63 as
the hash, and construct through the defaulting constructor. -/
def Header.fromBytes (data : List Nat) : Header :=
  Header.fromOptions
    { version := some (readUInt32LE data 8)
      metadataOffset := some (readUInt32LE data 12)
      metadataLength := some (readUInt32LE data 16)
      coverOffset := some (readUInt32LE data 20)
      coverLength := some (readUInt32LE data 24)
      archiveOffset := some (readUInt32LE data 28)
      archiveHash := some ((data.drop 32).take 32) }

/-- `Header.fromData(metadata, cover, archiveHash)`: offsets derived from
the lengths of the metadata and cover buffers. -/
def Header.fromData (metadata cover archiveHash : List Nat) : Header :=
  Header.fromOptions
    { archiveHash := some archiveHash
      archiveOffset := some (HEADER_SIZE + metadata.length + cover.length)
      coverLength := some cover.length
      coverOffset := some (HEADER_SIZE + metadata.length)
      metadataLength := some metadata.length }

/-! ## Metadata codec (`src/models/Metadata.ts`)

The wire form is JSON. `toBytes` is the UTF-8 bytes of
`JSON.stringify(toJSON(m))` and `fromBytes` is the constructor applied to
`JSON.parse` of those bytes. The embedding works at the JSON *value*
level: `JSON.parse(JSON.stringify(v)) = v` for every JSON value is a law
of the platform codec (an external collaborator), so
`fromBytes (toBytes m)` is `Metadata.fromParsedJson (Metadata.toJSON m)`
here. JSON numbers are modelled as exact rationals. -/

/-- A JSON value. -/
inductive Json where
  | null
  | bool (b : Bool)
  | num (q : ℚ)
  | str (s : String)
  | arr (xs : List Json)
  | obj (fields : List (String × Json))

/-- JavaScript falsiness of a parsed JSON value (`undefined` is handled by
the callers as a missing key): `null`, `false`, `0` and `""` are falsy;
arrays and objects are always truthy. -/
def Json.falsy : Json → Bool
  | .null => true
  | .bool b => !b
  | .num q => q == 0
  | .str s => s == ""
  | .arr _ => false
  | .obj _ => false

/-- `v || d` on a possibly-missing dynamic value. -/
def jsonOrDefault (v : Option Json) (d : Json) : Json :=
  match v with
  | none => d
  | some j => if j.falsy then d else j

/-- A JSON value read back at type `string`. -/
def asStr : Json → Option String
  | .str s => some s
  | _ => none

/-- A JSON value read back at type `number`. -/
def asNum : Json → Option ℚ
  | .num q => some q
  | _ => none

/-- A JSON value read back at type `boolean`. -/
def asBool : Json → Option Bool
  | .bool b => some b
  | _ => none

/-- A JSON value read back at type `string[]`. -/
def asStrList : Json → Option (List String)
  | .arr xs => xs.mapM asStr
  | _ => none

/-- The `Metadata` value object (igdbId and name required, the rest
defaulted at construction). -/
structure Metadata where
  igdbId : ℚ
  name : String
  description : String
  rating : ℚ
  developer : String
  publisher : String
  releaseDate : String
  genres : List String
  themes : List String
  keywords : List String
  server : Bool
deriving DecidableEq, Repr

/-- `Metadata.toJSON`: the canonical single-line JSON object, fixed key
set and order, snake_case wire keys for `igdb_id` and `release_date`. -/
def Metadata.toJSON (m : Metadata) : Json :=
  .obj [("description", .str m.description),
        ("developer", .str m.developer),
        ("genres", .arr (m.genres.map .str)),
        ("igdb_id", .num m.igdbId),
        ("keywords", .arr (m.keywords.map .str)),
        ("name", .str m.name),
        ("publisher", .str m.publisher),
        ("rating", .num m.rating),
        ("release_date", .str m.releaseDate),
        ("server", .bool m.server),
        ("themes", .arr (m.themes.map .str))]

/-- `Metadata.fromBytes` after `JSON.parse`: remap `release_date` to
`releaseDate` and `igdb_id` to `igdbId`, then run the defaulting
constructor (`options.x || default` on every optional field; `igdbId` and
`name` taken as-is). `none` when a field does not have its declared type
(the TypeScript code would store a dynamically ill-typed value there). -/
def Metadata.fromParsedJson (j : Json) : Option Metadata :=
  match j with
  | .obj fields => do
    let igdbId ← asNum (← fields.lookup "igdb_id")
    let name ← asStr (← fields.lookup "name")
    let description ← asStr (jsonOrDefault (fields.lookup "description") (.str ""))
    let rating ← asNum (jsonOrDefault (fields.lookup "rating") (.num 0))
    let developer ← asStr (jsonOrDefault (fields.lookup "developer") (.str ""))
    let publisher ← asStr (jsonOrDefault (fields.lookup "publisher") (.str ""))
    let releaseDate ← asStr (jsonOrDefault (fields.lookup "release_date") (.str ""))
    let genres ← asStrList (jsonOrDefault (fields.lookup "genres") (.arr []))
    let themes ← asStrList (jsonOrDefault (fields.lookup "themes") (.arr []))
    let keywords ← asStrList (jsonOrDefault (fields.lookup "keywords") (.arr []))
    let server ← asBool (jsonOrDefault (fields.lookup "server") (.bool false))
    some { igdbId, name, description, rating, developer, publisher, releaseDate,
           genres, themes, keywords, server }
  | _ => none

/-! ## JavaScript numbers with division by zero

`progress()` and the ETA computation can divide by zero, which in
JavaScript produces `Infinity`/`-Infinity`/`NaN` instead of failing.
`JsNum` is the exact-rational model of a JS number extended with those
values (rationals carry no signed zero; zero is treated as `+0`, which is
the only zero the code can produce from its counters). -/

inductive JsNum where
  | nan : JsNum
  | inf : Bool → JsNum
  | num : ℚ → JsNum
deriving DecidableEq, Repr

namespace JsNum

/-- Unary minus. -/
def neg : JsNum → JsNum
  | nan => nan
  | inf p => inf !p
  | num q => num (-q)

/-- Addition: `NaN` absorbs; opposite infinities give `NaN`. -/
def add : JsNum → JsNum → JsNum
  | nan, _ => nan
  | _, nan => nan
  | inf p, inf q => if p = q then inf p else nan
  | inf p, num _ => inf p
  | num _, inf p => inf p
  | num a, num b => num (a + b)

/-- Subtraction, as `a + (-b)`. -/
def sub (a b : JsNum) : JsNum := add a (neg b)

/-- Multiplication: `NaN` absorbs; `0 * ±∞ = NaN`; signs multiply. -/
def mul : JsNum → JsNum → JsNum
  | nan, _ => nan
  | _, nan => nan
  | inf p, inf q => inf (p == q)
  | inf p, num b => if b = 0 then nan else inf (p == decide (0 < b))
  | num a, inf p => if a = 0 then nan else inf (p == decide (0 < a))
  | num a, num b => num (a * b)

/-- Division: `NaN` absorbs; `±∞ / ±∞ = NaN`; a finite value over `±∞` is
zero; `a / 0` is `NaN` when `a = 0` and a sign-carrying infinity
otherwise (the zero divisor counts as `+0`). -/
def div : JsNum → JsNum → JsNum
  | nan, _ => nan
  | _, nan => nan
  | inf _, inf _ => nan
  | inf p, num b => inf (p == decide (0 ≤ b))
  | num _, inf _ => num 0
  | num a, num b =>
      if b = 0 then (if a = 0 then nan else inf (decide (0 < a))) else num (a / b)

end JsNum

/-! ## Progress model (`src/utils/progressReporter.ts`)

The reporter is a state record; methods that may invoke the callback
return the new state together with the emitted report, if any. The wall
clock (`new Date().getTime()`) is threaded in as an explicit argument. -/

/-- `STEP_OFFSET`. -/
def STEP_OFFSET : ℚ := 1

/-- `PROGRESS_MAX`. -/
def PROGRESS_MAX : ℚ := 100

/-- `UPDATE_INTERVAL` (milliseconds). -/
def UPDATE_INTERVAL : ℚ := 1000

/-- `Number.MAX_SAFE_INTEGER = 2^53 - 1`. -/
def MAX_SAFE_INTEGER : ℚ := 9007199254740991

/-- The mutable state of a `ProgressReporter`. -/
structure ProgressReporter where
  totalSteps : ℚ
  totalData : ℚ
  currentStep : ℚ
  currentData : ℚ
  currentAction : String
  lastUpdated : ℚ
  timeRemaining : JsNum
  startTime : ℚ
  hasCallback : Bool
deriving DecidableEq, Repr

/-- A report passed to the callback. -/
structure ProgressReport where
  progress : JsNum
  currentStep : ℚ
  totalSteps : ℚ
  currentData : ℚ
  totalData : ℚ
  timeRemaining : JsNum
  currentAction : String
deriving DecidableEq, Repr

/-- The constructor: zeroed counters, `lastUpdated = 0`, `startTime` the
current wall time, `timeRemaining = Number.MAX_SAFE_INTEGER`. -/
def ProgressReporter.init (totalSteps : ℚ) (hasCallback : Bool)
    (now : ℚ) : ProgressReporter where
  totalSteps := totalSteps
  currentStep := 0
  totalData := 0
  currentData := 0
  currentAction := ""
  lastUpdated := 0
  startTime := now
  timeRemaining := .num MAX_SAFE_INTEGER
  hasCallback := hasCallback

/-- `progress()`: `(currentStep - STEP_OFFSET) * (PROGRESS_MAX / totalSteps)
+ (currentData / totalData) * (PROGRESS_MAX / totalSteps)`. -/
def ProgressReporter.progress (s : ProgressReporter) : JsNum :=
  let stepContribution := JsNum.div (.num PROGRESS_MAX) (.num s.totalSteps)
  let basePercentage :=
    JsNum.mul (JsNum.sub (.num s.currentStep) (.num STEP_OFFSET)) stepContribution
  let currentStepPercentage :=
    JsNum.mul (JsNum.div (.num s.currentData) (.num s.totalData)) stepContribution
  JsNum.add basePercentage currentStepPercentage

/-- `setTotalData(data)`. -/
def ProgressReporter.setTotalData (s : ProgressReporter) (data : ℚ) : ProgressReporter :=
  { s with totalData := data, currentData := 0 }

/-- `advance(actionName)`. -/
def ProgressReporter.advance (s : ProgressReporter) (actionName : String) : ProgressReporter :=
  { s with currentAction := actionName, currentStep := s.currentStep + STEP_OFFSET,
           currentData := 0 }

/-- `updateData(data)` at wall time `currentTime`: always accumulates the
delta; with a callback, returns early inside the 1000ms window, otherwise
records the emission time, recomputes `timeRemaining` and emits. -/
def ProgressReporter.updateData (s : ProgressReporter) (data : ℚ)
    (currentTime : ℚ) : ProgressReporter × Option ProgressReport :=
  let s := { s with currentData := s.currentData + data }
  if s.hasCallback then
    if currentTime - s.lastUpdated < UPDATE_INTERVAL then (s, none)
    else
      let s := { s with lastUpdated := currentTime }
      let elapsedTime := currentTime - s.startTime
      let progress := s.progress
      let timePerPercent := JsNum.div (.num elapsedTime) progress
      let s := { s with
        timeRemaining := JsNum.mul timePerPercent (JsNum.sub (.num PROGRESS_MAX) progress) }
      (s, some { currentAction := s.currentAction, currentData := s.currentData,
                 currentStep := s.currentStep, progress := s.progress,
                 timeRemaining := s.timeRemaining, totalData := s.totalData,
                 totalSteps := s.totalSteps })
  else (s, none)

/-- `complete()`: force the counters to their maxima and, with a callback,
emit unconditionally with `timeRemaining = 0`. -/
def ProgressReporter.complete (s : ProgressReporter) :
    ProgressReporter × Option ProgressReport :=
  let s := { s with currentStep := s.totalSteps, currentData := s.totalData }
  if s.hasCallback then
    (s, some { currentAction := s.currentAction, currentData := s.currentData,
               currentStep := s.currentStep, progress := s.progress,
               timeRemaining := .num 0, totalData := s.totalData,
               totalSteps := s.totalSteps })
  else (s, none)

/-! ## Extraction (`CLBGFile.extractGame`)

The handle keeps the decoded header and, in place of the file path, the
bytes of the file it points at; the digest (`generateHash` over the read
stream starting at `archiveOffset`) and the archive codec
(`compressing.tgz/tar.uncompress`) are the external collaborators,
abstracted as `hashFn` and `unpackFn`. The metadata and cover fields of
the handle play no part in extraction and are omitted. -/

/-- The `expectedType` argument of `checkPathExists`
(`"directory" | "file"`). -/
inductive PathType where
  | directory
  | file
deriving DecidableEq, Repr

/-- What the filesystem reports about a path: absent (`!existsSync`), or
present as a regular file or as a directory (`statSync().isFile()` /
`.isDirectory()`). -/
inductive PathStat where
  | missing
  | file
  | directory
deriving DecidableEq, Repr

/-- The errors `extractGame` can throw before unpacking begins (the first
three are the distinct errors of the `checkPath` utility). -/
inductive ExtractError where
  | targetPathDoesNotExist
  | pathIsNotAFile
  | pathIsNotADirectory
  | targetDirectoryNotEmpty
  | integrityMismatch
deriving DecidableEq, Repr

/-- `checkPathExists(path, expectedType)` (`src/utils/checkPath`): throw
`Target path does not exist` when the path is absent; otherwise throw
`Path is not a file` when a file was expected but the path is not one,
and `Path is not a directory` when a directory was expected but the path
is not one. The path is abstracted by what `existsSync`/`statSync` report
about it. -/
def checkPathExists (stat : PathStat) (expectedType : PathType) :
    Except ExtractError Unit :=
  if stat = .missing then
    .error .targetPathDoesNotExist
  else if expectedType = .file ∧ ¬ stat = .file then
    .error .pathIsNotAFile
  else if expectedType = .directory ∧ ¬ stat = .directory then
    .error .pathIsNotADirectory
  else .ok ()

/-- A CLBG container handle (file contents plus decoded header). -/
structure CLBGFile where
  fileBytes : List Nat
  header : Header
deriving Repr

/-- `validateArchiveHash`: digest the byte range `[archiveOffset, EOF)` of
the file and compare with the header's stored hash (`Buffer.equals`). -/
def CLBGFile.validateArchiveHash (hashFn : List Nat → List Nat) (f : CLBGFile) : Bool :=
  hashFn (f.fileBytes.drop f.header.archiveOffset) == f.header.archiveHash

/-- `extractGame(targetDirectory)`: `checkPathExists(target, "directory")`
first, then reject a non-empty directory, then the integrity gate, and
only then stream-unpack the archive region into the directory. Returns
the final directory contents on success. -/
def CLBGFile.extractGame (hashFn : List Nat → List Nat)
    (unpackFn : List Nat → List String) (f : CLBGFile)
    (targetStat : PathStat) (dirContents : List String) :
    Except ExtractError (List String) :=
  match checkPathExists targetStat .directory with
  | .error e => .error e
  | .ok _ =>
    if dirContents.length > 0 then .error .targetDirectoryNotEmpty
    else if ¬ f.validateArchiveHash hashFn then .error .integrityMismatch
    else .ok (unpackFn (f.fileBytes.drop f.header.archiveOffset))

/-! ## The create pipeline (`CLBGFile.create`), modulo I/O

`create` writes `header.toBytes() ++ metadata ++ cover`, pipes the packed
archive bytes after them, then re-opens the file and patches exactly the
first 64 bytes with `header.toBytes()` after setting `header.archiveHash`
to the digest of the archive bytes. The archive codec and the digest are
the external collaborators, abstracted as the functions producing
`archiveBytes` and `hashFn`. -/

/-- The header and final on-disk bytes produced by `CLBGFile.create`. -/
def CLBGFile.create (metadataBytes coverBytes archiveBytes : List Nat)
    (hashFn : List Nat → List Nat) : Header × List Nat :=
  let header := Header.fromData metadataBytes coverBytes []
  let fileBody := header.toBytes ++ metadataBytes ++ coverBytes ++ archiveBytes
  let patched := { header with archiveHash := hashFn archiveBytes }
  (patched, patched.toBytes ++ fileBody.drop HEADER_SIZE)

/-! ## Helper lemmas -/

/-- `bufWrite` never changes the length of the buffer. -/
theorem bufWrite_length (buf : List Nat) (off : Nat) (xs : List Nat) :
    (bufWrite buf off xs).length = buf.length := by
  simp only [bufWrite, List.length_append, List.length_take, List.length_map, List.length_drop]
  omega

/-! ### Reading back what `bufWrite` wrote -/

theorem SIGNATURE_BYTES_length : SIGNATURE_BYTES.length = 8 := rfl

theorem u32leBytes_length (v : Nat) : (u32leBytes v).length = 4 := rfl

/-- Reading strictly before the written region sees the old buffer. -/
theorem getElem?_bufWrite_of_lt (buf : List Nat) (off : Nat) (xs : List Nat) (i : Nat)
    (h1 : i < off) (h2 : i < buf.length) :
    (bufWrite buf off xs)[i]? = buf[i]? := by
  unfold bufWrite
  rw [List.append_assoc, List.getElem?_append_left (by simp; omega),
    List.getElem?_take_of_lt h1]

/-- Reading at or after the end of the written region sees the old buffer. -/
theorem getElem?_bufWrite_of_ge (buf : List Nat) (off : Nat) (xs : List Nat) (i : Nat)
    (h1 : off + xs.length ≤ i) (h2 : off + xs.length ≤ buf.length) :
    (bufWrite buf off xs)[i]? = buf[i]? := by
  unfold bufWrite
  have l1len : (buf.take off).length = off := by simp; omega
  have midlen : ((xs.take (buf.length - off)).map (· % 256)).length = xs.length := by
    simp; omega
  rw [List.append_assoc, List.getElem?_append_right (by rw [l1len]; omega), l1len,
    List.getElem?_append_right (by rw [midlen]; omega), midlen, List.getElem?_drop]
  congr 1
  omega

/-- Reading inside the written region sees the written byte. -/
theorem getElem?_bufWrite_of_mem (buf : List Nat) (off : Nat) (xs : List Nat) (i : Nat)
    (h1 : off ≤ i) (h2 : i < off + xs.length) (h3 : off + xs.length ≤ buf.length) :
    (bufWrite buf off xs)[i]? = some (xs.getD (i - off) 0 % 256) := by
  unfold bufWrite
  have l1len : (buf.take off).length = off := by simp; omega
  have hxt : xs.take (buf.length - off) = xs := List.take_of_length_le (by omega)
  rw [List.append_assoc, List.getElem?_append_right (by rw [l1len]; omega), l1len, hxt,
    List.getElem?_append_left (by simp; omega), List.getElem?_map,
    List.getElem?_eq_getElem (by omega : i - off < xs.length)]
  simp [List.getD_eq_getElem?_getD, List.getElem?_eq_getElem (by omega : i - off < xs.length)]

/-! ### The six `uint32` fields read back (mod `2^32`) -/

theorem readUInt32LE_toBytes_8 (h : Header) :
    readUInt32LE h.toBytes 8 = h.version % 4294967296 := by
  simp only [Header.toBytes, readUInt32LE, List.getD_eq_getElem?_getD]
  simp (disch := simp [bufWrite_length, u32leBytes, SIGNATURE_BYTES, HEADER_SIZE]) only
    [getElem?_bufWrite_of_lt, getElem?_bufWrite_of_ge, getElem?_bufWrite_of_mem]
  simp [u32leBytes]
  omega

theorem readUInt32LE_toBytes_12 (h : Header) :
    readUInt32LE h.toBytes 12 = h.metadataOffset % 4294967296 := by
  simp only [Header.toBytes, readUInt32LE, List.getD_eq_getElem?_getD]
  simp (disch := simp [bufWrite_length, u32leBytes, SIGNATURE_BYTES, HEADER_SIZE]) only
    [getElem?_bufWrite_of_lt, getElem?_bufWrite_of_ge, getElem?_bufWrite_of_mem]
  simp [u32leBytes]
  omega

theorem readUInt32LE_toBytes_16 (h : Header) :
    readUInt32LE h.toBytes 16 = h.metadataLength % 4294967296 := by
  simp only [Header.toBytes, readUInt32LE, List.getD_eq_getElem?_getD]
  simp (disch := simp [bufWrite_length, u32leBytes, SIGNATURE_BYTES, HEADER_SIZE]) only
    [getElem?_bufWrite_of_lt, getElem?_bufWrite_of_ge, getElem?_bufWrite_of_mem]
  simp [u32leBytes]
  omega

theorem readUInt32LE_toBytes_20 (h : Header) :
    readUInt32LE h.toBytes 20 = h.coverOffset % 4294967296 := by
  simp only [Header.toBytes, readUInt32LE, List.getD_eq_getElem?_getD]
  simp (disch := simp [bufWrite_length, u32leBytes, SIGNATURE_BYTES, HEADER_SIZE]) only
    [getElem?_bufWrite_of_lt, getElem?_bufWrite_of_ge, getElem?_bufWrite_of_mem]
  simp [u32leBytes]
  omega

theorem readUInt32LE_toBytes_24 (h : Header) :
    readUInt32LE h.toBytes 24 = h.coverLength % 4294967296 := by
  simp only [Header.toBytes, readUInt32LE, List.getD_eq_getElem?_getD]
  simp (disch := simp [bufWrite_length, u32leBytes, SIGNATURE_BYTES, HEADER_SIZE]) only
    [getElem?_bufWrite_of_lt, getElem?_bufWrite_of_ge, getElem?_bufWrite_of_mem]
  simp [u32leBytes]
  omega

theorem readUInt32LE_toBytes_28 (h : Header) :
    readUInt32LE h.toBytes 28 = h.archiveOffset % 4294967296 := by
  simp only [Header.toBytes, readUInt32LE, List.getD_eq_getElem?_getD]
  simp (disch := simp [bufWrite_length, u32leBytes, SIGNATURE_BYTES, HEADER_SIZE]) only
    [getElem?_bufWrite_of_lt, getElem?_bufWrite_of_ge, getElem?_bufWrite_of_mem]
  simp [u32leBytes]
  omega

theorem drop32_bufWrite (buf : List Nat) (xs : List Nat) (hlen : buf.length = 64)
    (hx : xs.length = 32) (hb : ∀ b ∈ xs, b < 256) :
    ((bufWrite buf 32 xs).drop 32).take 32 = xs := by
  unfold bufWrite
  rw [hlen]
  have h1 : (buf.take 32).length = 32 := by simp [hlen]
  have hmap : xs.map (· % 256) = xs := by
    conv_rhs => rw [← List.map_id xs]
    exact List.map_congr_left fun b hb' => Nat.mod_eq_of_lt (hb b hb')
  have hdrop : buf.drop (32 + xs.length) = [] := by
    apply List.drop_eq_nil_of_le
    omega
  have htake : xs.take (64 - 32) = xs := List.take_of_length_le (by omega)
  rw [List.append_assoc, List.drop_left' h1, htake, hmap, hdrop, List.append_nil]
  exact List.take_of_length_le (by omega)

/-- Slicing bytes 32–63 of an encoded header recovers a 32-byte hash. -/
theorem toBytes_hash_slice (h : Header) (hh : h.archiveHash.length = 32)
    (hb : ∀ b ∈ h.archiveHash, b < 256) :
    ((h.toBytes.drop 32).take 32) = h.archiveHash := by
  simp only [Header.toBytes]
  exact drop32_bufWrite _ _ (by simp [bufWrite_length, HEADER_SIZE]) hh hb

/-- Reading back a serialized string list succeeds and is the identity
(stated on the accumulator loop underlying `List.mapM`). -/
theorem mapM_loop_asStr (l : List String) (acc : List String) :
    List.mapM.loop asStr (l.map Json.str) acc = some (acc.reverse ++ l) := by
  induction l generalizing acc with
  | nil => simp [List.mapM.loop]
  | cons a t ih => simp [List.mapM.loop, asStr, ih]

/-- Reading back a serialized string list succeeds and is the identity. -/
theorem mapM_asStr_map_str (l : List String) : (l.map Json.str).mapM asStr = some l := by
  rw [List.mapM, mapM_loop_asStr]
  rfl

/-- Every encoded header is exactly 64 bytes. -/
theorem toBytes_length (h : Header) : h.toBytes.length = 64 := by
  simp [Header.toBytes, bufWrite_length, HEADER_SIZE]

/-! ## The claims -/

set_option maxHeartbeats 2000000 in
/-- **C2** Metadata round-trip: for every `Metadata` value (required fields
present, every other field any value of its declared type, including
rating 0, empty strings, empty lists and `server = false`), decoding the
canonical encoding returns a `Metadata` whose eleven fields equal those of
the input. -/
theorem C2_metadata_roundtrip (m : Metadata) :
    Metadata.fromParsedJson m.toJSON = some m := by
  obtain ⟨igdbId, name, description, rating, developer, publisher, releaseDate,
    genres, themes, keywords, server⟩ := m
  simp only [Metadata.toJSON, Metadata.fromParsedJson, List.lookup, String.reduceBEq,
    Option.some_bind, asNum, asStr, asBool, asStrList]
  simp only [jsonOrDefault, Json.falsy, beq_iff_eq]
  split_ifs <;> simp_all [mapM_loop_asStr, List.mapM]

/-- **C3** Header round-trip: for every valid `Header` with a 32-byte digest
(version at least 1 and below `2^32`, `metadataOffset = 64`, `coverOffset`
and `archiveOffset` derived from the lengths and fitting in a `uint32`),
`Header.fromBytes (h.toBytes)` is the same record and re-encoding it
reproduces the same 64 bytes. -/
theorem C3_header_roundtrip (h : Header)
    (hver : 1 ≤ h.version) (hver32 : h.version < 4294967296)
    (hmo : h.metadataOffset = 64)
    (hco : h.coverOffset = 64 + h.metadataLength)
    (hao : h.archiveOffset = h.coverOffset + h.coverLength)
    (hfit : h.archiveOffset < 4294967296)
    (hh : h.archiveHash.length = 32)
    (hb : ∀ b ∈ h.archiveHash, b < 256) :
    Header.fromBytes h.toBytes = h ∧ (Header.fromBytes h.toBytes).toBytes = h.toBytes := by
  have hrt : Header.fromBytes h.toBytes = h := by
    unfold Header.fromBytes
    rw [readUInt32LE_toBytes_8, readUInt32LE_toBytes_12, readUInt32LE_toBytes_16,
      readUInt32LE_toBytes_20, readUInt32LE_toBytes_24, readUInt32LE_toBytes_28,
      toBytes_hash_slice h hh hb]
    cases h with
    | mk version mo ml co cl ao hash =>
      simp only [Header.fromOptions, falsyOr, Option.getD_some, HEADER_SIZE] at *
      simp only [Header.mk.injEq]
      refine ⟨?_, ?_, ?_, ?_, ?_, ?_, trivial⟩ <;> (split_ifs <;> omega)
  exact ⟨hrt, by rw [hrt]⟩

/-- Witness for C3 at a concrete valid header. -/
theorem C3_header_roundtrip_witness :
    Header.fromBytes (Header.mk 1 64 2 66 3 69 (List.replicate 32 7)).toBytes =
        Header.mk 1 64 2 66 3 69 (List.replicate 32 7) ∧
      (Header.fromBytes (Header.mk 1 64 2 66 3 69 (List.replicate 32 7)).toBytes).toBytes =
        (Header.mk 1 64 2 66 3 69 (List.replicate 32 7)).toBytes :=
  C3_header_roundtrip _ (by decide) (by decide) (by decide) (by decide) (by decide)
    (by decide) (by decide) (by decide)

/-- **C9** Implicit zero-field remapping: the `||`-defaulting constructor turns
a present-but-zero `version` into 1 and a present-but-zero `metadataOffset`
into 64 — also when reached through `Header.fromBytes` — so decoding and
re-encoding a 64-byte input whose version field is zero does not reproduce
the input (witnessed by the all-zero 64-byte input). -/
theorem C9_zero_field_remapping :
    (∀ o : HeaderOptions, o.version = some 0 → (Header.fromOptions o).version = 1) ∧
    (∀ o : HeaderOptions, o.metadataOffset = some 0 →
      (Header.fromOptions o).metadataOffset = 64) ∧
    (∀ data : List Nat, readUInt32LE data 8 = 0 → (Header.fromBytes data).version = 1) ∧
    (∀ data : List Nat, readUInt32LE data 12 = 0 →
      (Header.fromBytes data).metadataOffset = 64) ∧
    (Header.fromBytes (List.replicate 64 0)).toBytes ≠ List.replicate 64 0 := by
  refine ⟨?_, ?_, ?_, ?_, ?_⟩
  · intro o ho; simp [Header.fromOptions, falsyOr, ho]
  · intro o ho; simp [Header.fromOptions, falsyOr, ho, HEADER_SIZE]
  · intro data hd; simp [Header.fromBytes, Header.fromOptions, falsyOr, hd]
  · intro data hd; simp [Header.fromBytes, Header.fromOptions, falsyOr, hd, HEADER_SIZE]
  · decide

/-- Witness for C9: the implications applied to the all-zero input. -/
theorem C9_zero_field_remapping_witness :
    (Header.fromBytes (List.replicate 64 0)).version = 1 ∧
    (Header.fromBytes (List.replicate 64 0)).metadataOffset = 64 :=
  ⟨C9_zero_field_remapping.2.2.1 (List.replicate 64 0) (by decide),
   C9_zero_field_remapping.2.2.2.1 (List.replicate 64 0) (by decide)⟩

/-- **C4** Layout invariant: every header from `Header.fromData` satisfies
`metadataOffset = 64`, `metadataOffset + metadataLength = coverOffset` and
`coverOffset + coverLength = archiveOffset` with the lengths those of the
metadata and cover buffers; and in the file written by `create` the
archive bytes begin exactly at `archiveOffset`. -/
theorem C4_layout_invariant (metadataBytes coverBytes archiveBytes hash : List Nat)
    (hashFn : List Nat → List Nat) :
    ((Header.fromData metadataBytes coverBytes hash).metadataOffset = 64 ∧
      (Header.fromData metadataBytes coverBytes hash).metadataOffset +
          (Header.fromData metadataBytes coverBytes hash).metadataLength =
        (Header.fromData metadataBytes coverBytes hash).coverOffset ∧
      (Header.fromData metadataBytes coverBytes hash).coverOffset +
          (Header.fromData metadataBytes coverBytes hash).coverLength =
        (Header.fromData metadataBytes coverBytes hash).archiveOffset ∧
      (Header.fromData metadataBytes coverBytes hash).metadataLength =
        metadataBytes.length ∧
      (Header.fromData metadataBytes coverBytes hash).coverLength = coverBytes.length) ∧
    ((CLBGFile.create metadataBytes coverBytes archiveBytes hashFn).1.metadataOffset = 64 ∧
      (CLBGFile.create metadataBytes coverBytes archiveBytes hashFn).1.metadataOffset +
          (CLBGFile.create metadataBytes coverBytes archiveBytes hashFn).1.metadataLength =
        (CLBGFile.create metadataBytes coverBytes archiveBytes hashFn).1.coverOffset ∧
      (CLBGFile.create metadataBytes coverBytes archiveBytes hashFn).1.coverOffset +
          (CLBGFile.create metadataBytes coverBytes archiveBytes hashFn).1.coverLength =
        (CLBGFile.create metadataBytes coverBytes archiveBytes hashFn).1.archiveOffset ∧
      (CLBGFile.create metadataBytes coverBytes archiveBytes hashFn).2.drop
          (CLBGFile.create metadataBytes coverBytes archiveBytes hashFn).1.archiveOffset =
        archiveBytes) := by
  have hdata : ∀ hs : List Nat,
      (Header.fromData metadataBytes coverBytes hs).metadataOffset = 64 ∧
      (Header.fromData metadataBytes coverBytes hs).metadataLength = metadataBytes.length ∧
      (Header.fromData metadataBytes coverBytes hs).coverOffset =
        64 + metadataBytes.length ∧
      (Header.fromData metadataBytes coverBytes hs).coverLength = coverBytes.length ∧
      (Header.fromData metadataBytes coverBytes hs).archiveOffset =
        64 + metadataBytes.length + coverBytes.length := by
    intro hs
    simp only [Header.fromData, Header.fromOptions, falsyOr, HEADER_SIZE]
    refine ⟨trivial, ?_, ?_, ?_, ?_⟩ <;> (split_ifs <;> omega)
  obtain ⟨q1, q2, q3, q4, q5⟩ := hdata hash
  constructor
  · exact ⟨q1, by omega, by omega⟩
  · obtain ⟨p1, p2, p3, p4, p5⟩ := hdata []
    have hfields :
        (CLBGFile.create metadataBytes coverBytes archiveBytes hashFn).1.metadataOffset =
            (Header.fromData metadataBytes coverBytes []).metadataOffset ∧
          (CLBGFile.create metadataBytes coverBytes archiveBytes hashFn).1.metadataLength =
            (Header.fromData metadataBytes coverBytes []).metadataLength ∧
          (CLBGFile.create metadataBytes coverBytes archiveBytes hashFn).1.coverOffset =
            (Header.fromData metadataBytes coverBytes []).coverOffset ∧
          (CLBGFile.create metadataBytes coverBytes archiveBytes hashFn).1.coverLength =
            (Header.fromData metadataBytes coverBytes []).coverLength ∧
          (CLBGFile.create metadataBytes coverBytes archiveBytes hashFn).1.archiveOffset =
            (Header.fromData metadataBytes coverBytes []).archiveOffset := by
      simp [CLBGFile.create]
    obtain ⟨f1, f2, f3, f4, f5⟩ := hfields
    refine ⟨by omega, by omega, by omega, ?_⟩
    rw [f5, p5]
    show ((CLBGFile.create metadataBytes coverBytes archiveBytes hashFn).1.toBytes ++
        ((Header.fromData metadataBytes coverBytes []).toBytes ++ metadataBytes ++
            coverBytes ++ archiveBytes).drop HEADER_SIZE).drop
        (64 + metadataBytes.length + coverBytes.length) = archiveBytes
    rw [show (Header.fromData metadataBytes coverBytes []).toBytes ++ metadataBytes ++
          coverBytes ++ archiveBytes =
        (Header.fromData metadataBytes coverBytes []).toBytes ++
          ((metadataBytes ++ coverBytes) ++ archiveBytes) by simp [List.append_assoc]]
    rw [show (HEADER_SIZE : Nat) = ((Header.fromData metadataBytes coverBytes []).toBytes).length
        from (toBytes_length _).symm]
    rw [List.drop_left]
    rw [show (CLBGFile.create metadataBytes coverBytes archiveBytes hashFn).1.toBytes ++
          ((metadataBytes ++ coverBytes) ++ archiveBytes) =
        ((CLBGFile.create metadataBytes coverBytes archiveBytes hashFn).1.toBytes ++
          (metadataBytes ++ coverBytes)) ++ archiveBytes by simp [List.append_assoc]]
    apply List.drop_left'
    simp [toBytes_length]
    omega

/-- **C5** Progress formula: with `totalSteps ≥ 1`, `currentStep ≥ 1` and
`totalData > 0`, `progress()` returns exactly
`(currentStep - 1) * (100 / totalSteps) + (currentData / totalData) * (100 / totalSteps)`. -/
theorem C5_progress_formula (s : ProgressReporter)
    (h1 : 1 ≤ s.totalSteps) (h2 : 1 ≤ s.currentStep) (h3 : 0 < s.totalData) :
    s.progress = .num ((s.currentStep - 1) * (100 / s.totalSteps) +
      (s.currentData / s.totalData) * (100 / s.totalSteps)) := by
  have hts : s.totalSteps ≠ 0 := by intro h; rw [h] at h1; norm_num at h1
  have htd : s.totalData ≠ 0 := ne_of_gt h3
  simp [ProgressReporter.progress, JsNum.div, JsNum.mul, JsNum.sub, JsNum.add, JsNum.neg,
    hts, htd, PROGRESS_MAX, STEP_OFFSET, sub_eq_add_neg]

/-- Witness for C5 at a concrete reporter state. -/
theorem C5_progress_formula_witness :
    (ProgressReporter.mk 2 10 1 5 "" 0 (.num 0) 0 true).progress =
      .num ((1 - 1) * (100 / 2) + (5 / 10) * (100 / 2)) :=
  C5_progress_formula (ProgressReporter.mk 2 10 1 5 "" 0 (.num 0) 0 true)
    (by norm_num) (by norm_num) (by norm_num)

/-- **C6** `complete()`: for every reporter with a registered callback,
`complete()` sets `currentStep` to `totalSteps` and `currentData` to
`totalData`, and always emits a report with `timeRemaining` exactly 0 —
for every state, in particular however recent `lastUpdated` is (the
throttle is not consulted). -/
theorem C6_complete (s : ProgressReporter) (hc : s.hasCallback = true) :
    (s.complete.1.currentStep = s.totalSteps ∧
      s.complete.1.currentData = s.totalData) ∧
    s.complete.2.map ProgressReport.timeRemaining = some (JsNum.num 0) ∧
    s.complete.2.map ProgressReport.currentStep = some s.totalSteps ∧
    s.complete.2.map ProgressReport.currentData = some s.totalData := by
  simp [ProgressReporter.complete, hc]

/-- Witness for C6 at a concrete reporter whose last emission was 1ms ago. -/
theorem C6_complete_witness :
    ((ProgressReporter.mk 2 10 1 5 "" 4999 (.num 7) 0 true).complete.1.currentStep = 2 ∧
      (ProgressReporter.mk 2 10 1 5 "" 4999 (.num 7) 0 true).complete.1.currentData = 10) ∧
    (ProgressReporter.mk 2 10 1 5 "" 4999 (.num 7) 0 true).complete.2.map
      ProgressReport.timeRemaining = some (JsNum.num 0) ∧
    (ProgressReporter.mk 2 10 1 5 "" 4999 (.num 7) 0 true).complete.2.map
      ProgressReport.currentStep = some 2 ∧
    (ProgressReporter.mk 2 10 1 5 "" 4999 (.num 7) 0 true).complete.2.map
      ProgressReport.currentData = some 10 :=
  C6_complete (ProgressReporter.mk 2 10 1 5 "" 4999 (.num 7) 0 true) rfl

/-- **C7** Throttle: `updateData` always accumulates the delta; with a
registered callback it emits exactly when at least `UPDATE_INTERVAL`
(1000ms) has passed since the last emission recorded in `lastUpdated`; an
emission records its time, a suppressed call leaves it unchanged; hence a
second call less than 1000ms after an emitting one never emits. -/
theorem C7_updateData_throttle (s : ProgressReporter) (d t : ℚ)
    (hc : s.hasCallback = true) :
    (s.updateData d t).1.currentData = s.currentData + d ∧
    ((s.updateData d t).2.isSome ↔ UPDATE_INTERVAL ≤ t - s.lastUpdated) ∧
    ((s.updateData d t).2.isSome → (s.updateData d t).1.lastUpdated = t) ∧
    ((s.updateData d t).2 = none → (s.updateData d t).1.lastUpdated = s.lastUpdated) ∧
    (∀ d2 t2, (s.updateData d t).2.isSome → t2 - t < UPDATE_INTERVAL →
      ((s.updateData d t).1.updateData d2 t2).2 = none) := by
  refine ⟨?_, ?_, ?_, ?_, ?_⟩
  · by_cases ht : t - s.lastUpdated < UPDATE_INTERVAL <;>
      simp [ProgressReporter.updateData, hc, ht]
  · by_cases ht : t - s.lastUpdated < UPDATE_INTERVAL <;>
      simp [ProgressReporter.updateData, hc, ht] <;> linarith
  · by_cases ht : t - s.lastUpdated < UPDATE_INTERVAL <;>
      simp [ProgressReporter.updateData, hc, ht]
  · by_cases ht : t - s.lastUpdated < UPDATE_INTERVAL <;>
      simp [ProgressReporter.updateData, hc, ht]
  · intro d2 t2 hsome h2
    by_cases ht : t - s.lastUpdated < UPDATE_INTERVAL
    · simp [ProgressReporter.updateData, hc, ht] at hsome
    · simp [ProgressReporter.updateData, hc, ht, h2]

/-- Witness for C7: an emitting call at t=1500 followed by a suppressed
call 100ms later. -/
theorem C7_updateData_throttle_witness :
    ((ProgressReporter.mk 1 10 1 0 "" 0 (.num 0) 0 true).updateData 5 1500).1.currentData =
        0 + 5 ∧
      (((ProgressReporter.mk 1 10 1 0 "" 0 (.num 0) 0 true).updateData 5 1500).1.updateData
        3 1600).2 = none :=
  ⟨(C7_updateData_throttle (ProgressReporter.mk 1 10 1 0 "" 0 (.num 0) 0 true) 5 1500
      rfl).1,
   (C7_updateData_throttle (ProgressReporter.mk 1 10 1 0 "" 0 (.num 0) 0 true) 5 1500
      rfl).2.2.2.2 3 1600 (by norm_num [ProgressReporter.updateData, UPDATE_INTERVAL])
      (by norm_num [UPDATE_INTERVAL])⟩

/-- At `totalData = 0` the unguarded division makes `progress()` `NaN`
(counter zero) or `+Infinity` (counter positive). -/
theorem progress_of_totalData_zero (s : ProgressReporter) (htd : s.totalData = 0)
    (hts : 1 ≤ s.totalSteps) (hcd : 0 ≤ s.currentData) :
    s.progress = JsNum.nan ∨ s.progress = JsNum.inf true := by
  have hts0 : s.totalSteps ≠ 0 := by intro h; rw [h] at hts; norm_num at hts
  have htspos : 0 < s.totalSteps := by
    rcases lt_or_le 0 s.totalSteps with h | h
    · exact h
    · exfalso; linarith
  have hpos : 0 < 100 / s.totalSteps := by positivity
  by_cases hcd0 : s.currentData = 0
  · left
    simp [ProgressReporter.progress, JsNum.div, JsNum.mul, JsNum.sub, JsNum.add,
      JsNum.neg, htd, hcd0, hts0, PROGRESS_MAX, STEP_OFFSET]
  · right
    have hcpos : 0 < s.currentData := lt_of_le_of_ne hcd (Ne.symm hcd0)
    simp [ProgressReporter.progress, JsNum.div, JsNum.mul, JsNum.sub, JsNum.add,
      JsNum.neg, htd, hcd0, hts0, PROGRESS_MAX, STEP_OFFSET, hcpos, ne_of_gt hpos, hpos]

/-- **C10** Unguarded progress divisor: when no positive total has been set
(`totalData = 0`), every report emitted by `updateData` carries a progress
that is `NaN` (`0/0`) or `+Infinity` (`positive/0`), and the final report
from `complete()` carries `NaN` — never a finite number. -/
theorem C10_progress_unguarded_divisor (s : ProgressReporter)
    (htd : s.totalData = 0) (hts : 1 ≤ s.totalSteps) :
    (∀ d t : ℚ, 0 ≤ s.currentData + d → (s.updateData d t).2.isSome →
      ((s.updateData d t).2.map ProgressReport.progress = some JsNum.nan ∨
        (s.updateData d t).2.map ProgressReport.progress = some (JsNum.inf true)) ∧
      ∀ q : ℚ, (s.updateData d t).2.map ProgressReport.progress ≠ some (JsNum.num q)) ∧
    (s.complete.2.isSome →
      s.complete.2.map ProgressReport.progress = some JsNum.nan ∧
      ∀ q : ℚ, s.complete.2.map ProgressReport.progress ≠ some (JsNum.num q)) := by
  have hts0 : s.totalSteps ≠ 0 := by intro h; rw [h] at hts; norm_num at hts
  have htspos : 0 < s.totalSteps := by
    rcases lt_or_le 0 s.totalSteps with h | h
    · exact h
    · exfalso; linarith
  have hpos : 0 < 100 / s.totalSteps := by positivity
  constructor
  · intro d t hge hsome
    by_cases hcb : s.hasCallback
    · by_cases ht : t - s.lastUpdated < UPDATE_INTERVAL
      · simp [ProgressReporter.updateData, hcb, ht] at hsome
      · by_cases hcd0 : s.currentData + d = 0
        · constructor
          · left
            simp [ProgressReporter.updateData, hcb, ht, ProgressReporter.progress,
              JsNum.div, JsNum.mul, JsNum.sub, JsNum.add, JsNum.neg, htd, hcd0, hts0,
              PROGRESS_MAX, STEP_OFFSET]
          · intro q
            simp [ProgressReporter.updateData, hcb, ht, ProgressReporter.progress,
              JsNum.div, JsNum.mul, JsNum.sub, JsNum.add, JsNum.neg, htd, hcd0, hts0,
              PROGRESS_MAX, STEP_OFFSET]
        · have hcpos : 0 < s.currentData + d := lt_of_le_of_ne hge (Ne.symm hcd0)
          constructor
          · right
            simp [ProgressReporter.updateData, hcb, ht, ProgressReporter.progress,
              JsNum.div, JsNum.mul, JsNum.sub, JsNum.add, JsNum.neg, htd, hcd0, hts0,
              PROGRESS_MAX, STEP_OFFSET, hcpos, ne_of_gt hpos, hpos]
          · intro q
            simp [ProgressReporter.updateData, hcb, ht, ProgressReporter.progress,
              JsNum.div, JsNum.mul, JsNum.sub, JsNum.add, JsNum.neg, htd, hcd0, hts0,
              PROGRESS_MAX, STEP_OFFSET, hcpos, ne_of_gt hpos, hpos]
    · simp [ProgressReporter.updateData, hcb] at hsome
  · intro hsome
    by_cases hcb : s.hasCallback
    · constructor
      · simp [ProgressReporter.complete, hcb, ProgressReporter.progress, JsNum.div,
          JsNum.mul, JsNum.sub, JsNum.add, JsNum.neg, htd, hts0, PROGRESS_MAX,
          STEP_OFFSET]
      · intro q
        simp [ProgressReporter.complete, hcb, ProgressReporter.progress, JsNum.div,
          JsNum.mul, JsNum.sub, JsNum.add, JsNum.neg, htd, hts0, PROGRESS_MAX,
          STEP_OFFSET]
    · simp [ProgressReporter.complete, hcb] at hsome

/-- Witness for C10: a reporter with callback, `totalData = 0`, emitting at
t=2000 and completing. -/
theorem C10_progress_unguarded_divisor_witness :
    (((ProgressReporter.mk 1 0 1 0 "" 0 (.num 0) 0 true).updateData 0 2000).2.map
        ProgressReport.progress = some JsNum.nan ∨
      ((ProgressReporter.mk 1 0 1 0 "" 0 (.num 0) 0 true).updateData 0 2000).2.map
        ProgressReport.progress = some (JsNum.inf true)) ∧
    (ProgressReporter.mk 1 0 1 0 "" 0 (.num 0) 0 true).complete.2.map
      ProgressReport.progress = some JsNum.nan :=
  ⟨((C10_progress_unguarded_divisor (ProgressReporter.mk 1 0 1 0 "" 0 (.num 0) 0 true)
      rfl (by norm_num)).1 0 2000 (by norm_num)
      (by norm_num [ProgressReporter.updateData, UPDATE_INTERVAL])).1,
   ((C10_progress_unguarded_divisor (ProgressReporter.mk 1 0 1 0 "" 0 (.num 0) 0 true)
      rfl (by norm_num)).2 (by simp [ProgressReporter.complete])).1⟩

/-- **C8** (claim as stated, refuted): an `updateData` emission at percent
zero carries `timeRemaining = Infinity` — the result of the division by
zero — not the `Number.MAX_SAFE_INTEGER` sentinel. Concrete input: a
fresh two-step-free reporter (`totalSteps 1`, `totalData 10`, counter 0)
emitting at wall time 5000 with `startTime 0`. -/
theorem C8_eta_zero_percent_counterexample :
    ((ProgressReporter.mk 1 10 1 0 "" 0 (.num MAX_SAFE_INTEGER) 0 true).updateData
        0 5000).2.map ProgressReport.progress = some (JsNum.num 0) ∧
    ((ProgressReporter.mk 1 10 1 0 "" 0 (.num MAX_SAFE_INTEGER) 0 true).updateData
        0 5000).2.map ProgressReport.timeRemaining = some (JsNum.inf true) ∧
    JsNum.inf true ≠ JsNum.num MAX_SAFE_INTEGER := by
  refine ⟨?_, ?_, by simp⟩ <;>
    norm_num [ProgressReporter.updateData, ProgressReporter.progress, UPDATE_INTERVAL,
      PROGRESS_MAX, STEP_OFFSET, JsNum.div, JsNum.mul, JsNum.sub, JsNum.add, JsNum.neg]

/-- **C8 amended** ETA at zero percent: whenever `updateData` emits, the
report's `timeRemaining` is the recomputed `elapsed / percent *
(100 - percent)`: at percent zero that division is carried out and yields
`+Infinity` when elapsed time is positive and `NaN` when it is zero (the
`MAX_SAFE_INTEGER` sentinel is only the initial value, never re-emitted by
`updateData`); at any percent `p ≠ 0` it equals
`elapsed / p * (100 - p)` exactly. -/
theorem C8_eta_formula (s : ProgressReporter) (d t : ℚ) (r : ProgressReport)
    (hr : (s.updateData d t).2 = some r) :
    (r.progress = JsNum.num 0 → 0 < t - s.startTime → r.timeRemaining = JsNum.inf true) ∧
    (r.progress = JsNum.num 0 → t - s.startTime = 0 → r.timeRemaining = JsNum.nan) ∧
    (∀ p : ℚ, r.progress = JsNum.num p → p ≠ 0 →
      r.timeRemaining = JsNum.num ((t - s.startTime) / p * (100 - p))) := by
  by_cases hcb : s.hasCallback
  · by_cases ht : t - s.lastUpdated < UPDATE_INTERVAL
    · simp [ProgressReporter.updateData, hcb, ht] at hr
    · simp only [ProgressReporter.updateData, hcb, ht, reduceIte,
        Option.some.injEq] at hr
      subst hr
      refine ⟨?_, ?_, ?_⟩
      · intro hp helapsed
        simp only [ProgressReporter.progress] at hp ⊢
        simp only [hp]
        have h1 : t - s.startTime ≠ 0 := ne_of_gt helapsed
        norm_num [JsNum.div, JsNum.mul, JsNum.sub, JsNum.add, JsNum.neg, h1,
          helapsed, PROGRESS_MAX]
      · intro hp helapsed
        simp only [ProgressReporter.progress] at hp ⊢
        simp only [hp]
        norm_num [JsNum.div, JsNum.mul, JsNum.sub, JsNum.add, JsNum.neg, helapsed,
          PROGRESS_MAX]
      · intro p hp hpne
        simp only [ProgressReporter.progress] at hp ⊢
        simp only [hp]
        norm_num [JsNum.div, JsNum.mul, JsNum.sub, JsNum.add, JsNum.neg, hpne,
          PROGRESS_MAX, sub_eq_add_neg]
  · simp [ProgressReporter.updateData, hcb] at hr

/-- Witness for the amended C8: a concrete emission at percent 50 whose
`timeRemaining` matches the extrapolation formula. -/
theorem C8_eta_formula_witness :
    (ProgressReport.mk (JsNum.num 50) 1 1 5 10 (JsNum.num 2000) "").timeRemaining =
      JsNum.num ((2000 - 0) / 50 * (100 - 50)) :=
  (C8_eta_formula (ProgressReporter.mk 1 10 1 0 "" 0 (.num 0) 0 true) 5 2000
      (ProgressReport.mk (JsNum.num 50) 1 1 5 10 (JsNum.num 2000) "")
      (by norm_num [ProgressReporter.updateData, ProgressReporter.progress,
        UPDATE_INTERVAL, PROGRESS_MAX, STEP_OFFSET, JsNum.div, JsNum.mul, JsNum.sub,
        JsNum.add, JsNum.neg])).2.2 50 rfl (by norm_num)

/-- **C1** Extraction-failure atomicity: on an existing target directory,
`extractGame` throws `TargetDirectoryNotEmpty` when the directory has at
least one entry, and `IntegrityMismatch` when it is empty but the digest
recomputed over `[archiveOffset, EOF)` differs from the header's stored
hash; in either case no unpack output is produced — the result is the
error, the directory contents are untouched, and the outcome does not
depend on the unpack codec at all (the hash gate completes before any
unpacking). -/
theorem C1_extract_failure_atomicity (hashFn : List Nat → List Nat)
    (unpackFn : List Nat → List String) (f : CLBGFile) (dirContents : List String) :
    (dirContents ≠ [] →
      CLBGFile.extractGame hashFn unpackFn f .directory dirContents =
        .error .targetDirectoryNotEmpty) ∧
    (dirContents = [] →
      hashFn (f.fileBytes.drop f.header.archiveOffset) ≠ f.header.archiveHash →
      CLBGFile.extractGame hashFn unpackFn f .directory dirContents =
        .error .integrityMismatch) ∧
    ((dirContents ≠ [] ∨
        hashFn (f.fileBytes.drop f.header.archiveOffset) ≠ f.header.archiveHash) →
      (∀ unpackFn2 : List Nat → List String,
        CLBGFile.extractGame hashFn unpackFn f .directory dirContents =
          CLBGFile.extractGame hashFn unpackFn2 f .directory dirContents) ∧
      ∀ out : List String,
        CLBGFile.extractGame hashFn unpackFn f .directory dirContents ≠ .ok out) := by
  refine ⟨?_, ?_, ?_⟩
  · intro hne
    have hlen : dirContents.length > 0 := List.length_pos.mpr hne
    simp [CLBGFile.extractGame, checkPathExists, hlen]
  · intro hnil hmm
    have hv : f.validateArchiveHash hashFn = false := by
      simp [CLBGFile.validateArchiveHash, hmm]
    simp [CLBGFile.extractGame, checkPathExists, hnil, hv]
  · intro hfail
    rcases hfail with hne | hmm
    · have hlen : dirContents.length > 0 := List.length_pos.mpr hne
      constructor
      · intro u2; simp [CLBGFile.extractGame, checkPathExists, hlen]
      · intro out; simp [CLBGFile.extractGame, checkPathExists, hlen]
    · rcases List.eq_nil_or_concat dirContents with hnil | hcons
      · have hv : f.validateArchiveHash hashFn = false := by
          simp [CLBGFile.validateArchiveHash, hmm]
        constructor
        · intro u2; simp [CLBGFile.extractGame, checkPathExists, hnil, hv]
        · intro out; simp [CLBGFile.extractGame, checkPathExists, hnil, hv]
      · have hlen : dirContents.length > 0 := by
          obtain ⟨l, a, rfl⟩ := hcons
          simp
        constructor
        · intro u2; simp [CLBGFile.extractGame, checkPathExists, hlen]
        · intro out; simp [CLBGFile.extractGame, checkPathExists, hlen]

/-- Witness for C1: a container whose stored hash does not match, against a
populated and an empty target directory. -/
theorem C1_extract_failure_atomicity_witness :
    CLBGFile.extractGame (fun _ => [0]) (fun _ => ["unpacked"])
        (CLBGFile.mk (List.replicate 64 0 ++ [1, 2, 3]) (Header.mk 1 64 0 64 0 64 [7]))
        .directory ["existing.txt"] = .error .targetDirectoryNotEmpty ∧
    CLBGFile.extractGame (fun _ => [0]) (fun _ => ["unpacked"])
        (CLBGFile.mk (List.replicate 64 0 ++ [1, 2, 3]) (Header.mk 1 64 0 64 0 64 [7]))
        .directory [] = .error .integrityMismatch :=
  ⟨(C1_extract_failure_atomicity (fun _ => [0]) (fun _ => ["unpacked"])
      (CLBGFile.mk (List.replicate 64 0 ++ [1, 2, 3]) (Header.mk 1 64 0 64 0 64 [7]))
      ["existing.txt"]).1 (by decide),
   (C1_extract_failure_atomicity (fun _ => [0]) (fun _ => ["unpacked"])
      (CLBGFile.mk (List.replicate 64 0 ++ [1, 2, 3]) (Header.mk 1 64 0 64 0 64 [7]))
      []).2.1 rfl (by decide)⟩

end CLBG
